import Mathlib

/-!
Shallow embedding of the entity-pool subsystem of `src/src/entitysystem.cpp`
(namespace `EntitySystem`): a fixed-capacity pool of grid-bound entities with a
free-list of recyclable ids, a dense alive list, per-id positions, and an
occupancy grid.  C arrays become total functions `Nat → _` (only indices below
the relevant count/capacity are meaningful, matching the C arrays' extent);
`std::optional` becomes `Option`; the grid `grid[x][y]` becomes a function
`Position → Option Nat`.  The compile-time constants `MAX_ENTITIES`,
`GRID_WIDTH`, `GRID_HEIGHT` are declared in `include/main.hpp`, which is not
part of the sources here, so they are carried as an explicit configuration
record.  `TraceLog` calls are diagnostics only and are dropped.
-/

namespace EntitySystem

/-- Modelled from the spec: the constants `MAX_ENTITIES`, `GRID_WIDTH` and
`GRID_HEIGHT` are defined in `include/main.hpp` (not under `src/`); the spec
treats them as the pool capacity and the occupancy-grid bounds, so they are
modelled as an explicit configuration record. -/
structure Config where
  MAX_ENTITIES : Nat
  GRID_WIDTH : Int
  GRID_HEIGHT : Int
deriving Repr

/-- Modelled from the spec: `Position` is declared in `include/main.hpp` (not
under `src/`); a pair of integer coordinates in grid space, a value type. -/
structure Position where
  x : Int
  y : Int
deriving DecidableEq, Repr

/-- Modelled from the spec: `Tile` is declared outside `src/`; the entity pool
only reads its boolean `traversable` attribute. -/
structure Tile where
  traversable : Bool
deriving DecidableEq, Repr

/-- Modelled from the spec: `Direction` is an enum declared in
`include/main.hpp` (not under `src/`) with the four compass enumerators; a C++
enum variable may also hold a value outside the enumerators, which the source's
`switch` sends to its `default` branch, so an extra constructor `other` carries
such an unrecognized raw value. -/
inductive Direction where
  | NORTH
  | EAST
  | SOUTH
  | WEST
  | other (v : Int)
deriving DecidableEq, Repr

/-- The tile map parameter `const Tile map[][WORLD_HEIGHT]`, read only at
`map[pos.x][pos.y]`; modelled as a total function on integer coordinates. -/
def TileMap : Type := Int → Int → Tile

/-- Modelled from the spec: the `EntityData` aggregate is declared in
`include/main.hpp` (not under `src/`).  Its fields are the ones the source
reads and writes: `positions`, `alive_indices`, `dead_indices`, `alive_count`,
`dead_count`, and the occupancy `grid`. -/
structure EntityData where
  positions : Nat → Position
  alive_indices : Nat → Nat
  dead_indices : Nat → Nat
  alive_count : Nat
  dead_count : Nat
  grid : Position → Option Nat

/-- `is_valid_position` from the source: inside `[0, GRID_WIDTH) × [0, GRID_HEIGHT)`. -/
def is_valid_position (cfg : Config) (pos : Position) : Bool :=
  decide (0 ≤ pos.x) && decide (pos.x < cfg.GRID_WIDTH) &&
  decide (0 ≤ pos.y) && decide (pos.y < cfg.GRID_HEIGHT)

/-- `is_occupied` from the source: the position is valid and its grid cell holds a value. -/
def is_occupied (cfg : Config) (data : EntityData) (pos : Position) : Bool :=
  is_valid_position cfg pos && (data.grid pos).isSome

/-- `is_traversable` from the source: if the position is valid and unoccupied,
return the tile's `traversable` attribute; the default return is `false`. -/
def is_traversable (cfg : Config) (data : EntityData) (map : TileMap)
    (pos : Position) : Bool :=
  if is_valid_position cfg pos && !(is_occupied cfg data pos) then
    (map pos.x pos.y).traversable
  else
    false

/-- `get_new_position` from the source: the `switch` over the direction, with
the `default` branch returning the current position unchanged. -/
def get_new_position (current_pos : Position) (dir : Direction) : Position :=
  match dir with
  | Direction.NORTH => { x := current_pos.x, y := current_pos.y - 1 }
  | Direction.EAST => { x := current_pos.x - 1, y := current_pos.y }
  | Direction.SOUTH => { x := current_pos.x, y := current_pos.y + 1 }
  | Direction.WEST => { x := current_pos.x + 1, y := current_pos.y }
  | Direction.other _ => current_pos

/-- The source's pool-reset function (named `initialize` there, which is a
reserved word in Lean, so it is named `init` here): writes `dead_indices[i] = i` and
`positions[i] = {0,0}` for `i < MAX_ENTITIES`, and clears every cell of the
grid (the real grid array is exactly the valid region).  Note the source does
not write `alive_count` or `dead_count`. -/
def init (cfg : Config) (data : EntityData) : EntityData :=
  { data with
    dead_indices := fun i => if i < cfg.MAX_ENTITIES then i else data.dead_indices i
    positions := fun i =>
      if i < cfg.MAX_ENTITIES then { x := 0, y := 0 } else data.positions i
    grid := fun p => if is_valid_position cfg p then none else data.grid p }

/-- `create_entity` from the source: fails when no dead ids remain or the
position is not traversable; otherwise pops the top of `dead_indices`, appends
it to `alive_indices`, records the position and writes the grid cell. -/
def create_entity (cfg : Config) (data : EntityData) (map : TileMap)
    (pos : Position) : Option Nat × EntityData :=
  if data.dead_count == 0 || !(is_traversable cfg data map pos) then
    (none, data)
  else
    let entity_idx := data.dead_indices (data.dead_count - 1)
    (some entity_idx,
      { data with
        dead_count := data.dead_count - 1
        alive_indices := fun j =>
          if j = data.alive_count then entity_idx else data.alive_indices j
        alive_count := data.alive_count + 1
        positions := fun j => if j = entity_idx then pos else data.positions j
        grid := fun p => if p = pos then some entity_idx else data.grid p })

/-- Body of the matched branch of `kill_entity`'s loop at index `i`: clear the
entity's grid cell, overwrite slot `i` with the last alive entry and shrink,
then push the id onto `dead_indices`.  Reads happen before writes exactly as in
the source (the last alive entry is read at the pre-decrement `alive_count`,
the push lands at the pre-increment `dead_count`). -/
def remove_alive (data : EntityData) (entity_idx : Nat) (i : Nat) : EntityData :=
  let pos := data.positions entity_idx
  { data with
    grid := fun p => if p = pos then none else data.grid p
    alive_indices := fun j =>
      if j = i then data.alive_indices (data.alive_count - 1)
      else data.alive_indices j
    alive_count := data.alive_count - 1
    dead_indices := fun j =>
      if j = data.dead_count then entity_idx else data.dead_indices j
    dead_count := data.dead_count + 1 }

/-- The `for` loop of `kill_entity`: `i` increments every iteration and the
loop runs while `i < alive_count`, where `alive_count` never increases, so the
loop performs at most its initial `alive_count` iterations; the structural
`fuel` argument is instantiated with that bound in `kill_entity`, which makes
the fueled recursion return exactly at the loop's exit test. -/
def kill_loop (data : EntityData) (entity_idx : Nat) (i : Nat) :
    Nat → EntityData
  | 0 => data
  | Nat.succ fuel =>
    if i < data.alive_count then
      if data.alive_indices i = entity_idx then
        kill_loop (remove_alive data entity_idx i) entity_idx (i + 1) fuel
      else
        kill_loop data entity_idx (i + 1) fuel
    else
      data

/-- `kill_entity` from the source: scan the alive array for `entity_idx`,
swap-removing it and pushing it on the dead stack where it matches. -/
def kill_entity (data : EntityData) (entity_idx : Nat) : EntityData :=
  kill_loop data entity_idx 0 data.alive_count

/-- `move_entity` from the source: compute the destination from the entity's
current position; if it is traversable, clear the current grid cell, write the
destination cell and update the position (the destination write happens after
the clear, so it wins if the two cells coincide), returning `true`; otherwise
mutate nothing and return `false`. -/
def move_entity (cfg : Config) (data : EntityData) (map : TileMap)
    (entity_idx : Nat) (dir : Direction) : Bool × EntityData :=
  let current := data.positions entity_idx
  let new_pos := get_new_position current dir
  if is_traversable cfg data map new_pos then
    (true,
      { data with
        grid := fun p =>
          if p = new_pos then some entity_idx
          else if p = current then none
          else data.grid p
        positions := fun j =>
          if j = entity_idx then new_pos else data.positions j })
  else
    (false, data)

/-- Modelled from the spec: the startup values of the `EntityData` aggregate
are fixed by its declaration in `include/main.hpp`, which is not under `src/`;
the spec fixes `alive_count = 0` and `dead_count = MAX_ENTITIES` at startup
(the array contents are irrelevant, `initialize` overwrites them). -/
def freshPool (cfg : Config) : EntityData :=
  { positions := fun _ => { x := 0, y := 0 }
    alive_indices := fun _ => 0
    dead_indices := fun _ => 0
    alive_count := 0
    dead_count := cfg.MAX_ENTITIES
    grid := fun _ => none }

/-- The pool state right after the reset function `init` has run on the startup pool. -/
def initialState (cfg : Config) : EntityData :=
  init cfg (freshPool cfg)

/-- One public mutating call on the pool, with its per-call arguments. -/
inductive Op where
  | create (map : TileMap) (pos : Position)
  | kill (entity_idx : Nat)
  | move (map : TileMap) (entity_idx : Nat) (dir : Direction)

/-- State transition of one public call (its returned value is dropped). -/
def applyOp (cfg : Config) (s : EntityData) : Op → EntityData
  | Op.create map pos => (create_entity cfg s map pos).2
  | Op.kill e => kill_entity s e
  | Op.move map e dir => (move_entity cfg s map e dir).2

/-- An id that occurs in the live portion of the alive array. -/
def isAlive (s : EntityData) (e : Nat) : Prop :=
  ∃ i, i < s.alive_count ∧ s.alive_indices i = e

/-- States reachable from initialization by any sequence of public calls. -/
inductive Reachable (cfg : Config) : EntityData → Prop
  | init : Reachable cfg (initialState cfg)
  | step (s : EntityData) (op : Op) :
      Reachable cfg s → Reachable cfg (applyOp cfg s op)

/-- The spec's precondition on a public call: `move_entity` assumes its id is
currently alive; `create_entity` and `kill_entity` validate their own inputs. -/
def OpOk (s : EntityData) : Op → Prop
  | Op.move _ e _ => isAlive s e
  | _ => True

/-- States reachable from initialization by public calls that respect the
spec's preconditions (every `move_entity` call receives a then-alive id). -/
inductive ReachableOk (cfg : Config) : EntityData → Prop
  | init : ReachableOk cfg (initialState cfg)
  | step (s : EntityData) (op : Op) :
      ReachableOk cfg s → OpOk s op → ReachableOk cfg (applyOp cfg s op)

/-- Number of indices `j < n` with `f j = e`: occurrence count of `e` in the
array prefix `f[0..n)`. -/
def countIn (f : Nat → Nat) (e : Nat) : Nat → Nat
  | 0 => 0
  | n + 1 => countIn f e n + (if f n = e then 1 else 0)

/-- The free-list/alive-list partition invariant: the two counts sum to the
capacity, all stored ids are below the capacity, and every id below the
capacity occurs exactly once across the two live array prefixes. -/
def PartitionInv (cfg : Config) (s : EntityData) : Prop :=
  s.alive_count + s.dead_count = cfg.MAX_ENTITIES ∧
  (∀ i, i < s.alive_count → s.alive_indices i < cfg.MAX_ENTITIES) ∧
  (∀ i, i < s.dead_count → s.dead_indices i < cfg.MAX_ENTITIES) ∧
  (∀ e, e < cfg.MAX_ENTITIES →
    countIn s.alive_indices e s.alive_count +
      countIn s.dead_indices e s.dead_count = 1)

/-- Grid/position consistency: every alive id's recorded position maps back to
it on the grid, and every occupied grid cell names an alive id recorded at
exactly that cell. -/
def GridConsistent (s : EntityData) : Prop :=
  (∀ e, isAlive s e → s.grid (s.positions e) = some e) ∧
  (∀ p e, s.grid p = some e → isAlive s e ∧ s.positions e = p)


/-- A five-entity configuration on a 10 by 10 grid, as in the testable
properties of the spec. -/
def cfg5 : Config := { MAX_ENTITIES := 5, GRID_WIDTH := 10, GRID_HEIGHT := 10 }

/-- A two-entity configuration on a 10 by 10 grid. -/
def cfg2 : Config := { MAX_ENTITIES := 2, GRID_WIDTH := 10, GRID_HEIGHT := 10 }

/-- A tile map whose every tile is traversable. -/
def mapAll : TileMap := fun _ _ => { traversable := true }

/-- Scenario states: five entities created at distinct cells of row zero. -/
def s5_1 : EntityData :=
  (create_entity cfg5 (initialState cfg5) mapAll { x := 0, y := 0 }).2

def s5_2 : EntityData := (create_entity cfg5 s5_1 mapAll { x := 1, y := 0 }).2

def s5_3 : EntityData := (create_entity cfg5 s5_2 mapAll { x := 2, y := 0 }).2

def s5_4 : EntityData := (create_entity cfg5 s5_3 mapAll { x := 3, y := 0 }).2

def s5_5 : EntityData := (create_entity cfg5 s5_4 mapAll { x := 4, y := 0 }).2

/-- Scenario state: the third-created entity (id 2) killed out of the full pool. -/
def s5_killed : EntityData := kill_entity s5_5 2

/-- Scenario state: one entity (id 4) created at the left edge of the grid. -/
def s5_edge : EntityData :=
  (create_entity cfg5 (initialState cfg5) mapAll { x := 0, y := 3 }).2

/-- A tile map whose every tile is non-traversable. -/
def mapNone : TileMap := fun _ _ => { traversable := false }

/-- A small concrete pool for the consistency scenarios: capacity 2, id 1
alive at cell (2,3), id 0 dead on the free list, with a stale recorded
position (0,0) for the dead id. -/
def sA : EntityData :=
  { positions := fun e => if e = 1 then { x := 2, y := 3 } else { x := 0, y := 0 }
    alive_indices := fun _ => 1
    dead_indices := fun _ => 0
    alive_count := 1
    dead_count := 1
    grid := fun p => if p = { x := 2, y := 3 } then some 1 else none }

/-! ### Counting lemmas for the array-prefix occurrence count -/

theorem countIn_succ (f : Nat → Nat) (e n : Nat) :
    countIn f e (n + 1) = countIn f e n + (if f n = e then 1 else 0) := rfl

theorem countIn_congr {f g : Nat → Nat} {e : Nat} :
    ∀ {n : Nat}, (∀ j, j < n → f j = g j) → countIn f e n = countIn g e n := by
  intro n
  induction n with
  | zero => intro _; rfl
  | succ n ih =>
    intro h
    rw [countIn_succ, countIn_succ, ih fun j hj => h j (Nat.lt_succ_of_lt hj),
      h n (Nat.lt_succ_self n)]

theorem countIn_pos {f : Nat → Nat} {e i : Nat} :
    ∀ {n : Nat}, i < n → f i = e → 1 ≤ countIn f e n := by
  intro n
  induction n with
  | zero => intro h; exact absurd h (Nat.not_lt_zero i)
  | succ n ih =>
    intro hi hf
    rw [countIn_succ]
    rcases Nat.lt_or_ge i n with h | h
    · exact Nat.le_trans (ih h hf) (Nat.le_add_right _ _)
    · have : i = n := Nat.le_antisymm (Nat.lt_succ_iff.mp hi) h
      subst this
      simp [hf]

theorem countIn_eq_zero {f : Nat → Nat} {e : Nat} :
    ∀ {n : Nat}, (∀ j, j < n → f j ≠ e) → countIn f e n = 0 := by
  intro n
  induction n with
  | zero => intro _; rfl
  | succ n ih =>
    intro h
    rw [countIn_succ, ih fun j hj => h j (Nat.lt_succ_of_lt hj),
      if_neg (h n (Nat.lt_succ_self n))]

theorem countIn_mono {f : Nat → Nat} {e m n : Nat} (h : m ≤ n) :
    countIn f e m ≤ countIn f e n := by
  induction n with
  | zero => cases Nat.le_zero.mp h; exact Nat.le_refl _
  | succ n ih =>
    rcases Nat.lt_or_ge m (n + 1) with hlt | hge
    · exact Nat.le_trans (ih (Nat.lt_succ_iff.mp hlt)) (Nat.le_add_right _ _)
    · have : m = n + 1 := Nat.le_antisymm h hge
      subst this
      exact Nat.le_refl _

theorem countIn_two {f : Nat → Nat} {e i j n : Nat} (hij : i < j) (hj : j < n)
    (hfi : f i = e) (hfj : f j = e) : 2 ≤ countIn f e n := by
  have h1 : 1 ≤ countIn f e j := countIn_pos hij hfi
  have h2 : countIn f e j + 1 ≤ countIn f e (j + 1) := by
    rw [countIn_succ, if_pos hfj]
  have h3 : countIn f e (j + 1) ≤ countIn f e n := countIn_mono hj
  omega

theorem countIn_update {f : Nat → Nat} {e v : Nat} :
    ∀ {n : Nat} {j : Nat}, j < n →
      countIn (fun k => if k = j then v else f k) e n + (if f j = e then 1 else 0)
        = countIn f e n + (if v = e then 1 else 0) := by
  intro n
  induction n with
  | zero => intro j h; exact absurd h (Nat.not_lt_zero j)
  | succ n ih =>
    intro j hj
    rcases Nat.lt_or_ge j n with hlt | hge
    · have hne : n ≠ j := Nat.ne_of_gt hlt
      have ih1 := ih hlt
      simp only [countIn_succ, if_neg hne]
      omega
    · have : j = n := Nat.le_antisymm (Nat.lt_succ_iff.mp hj) hge
      subst this
      have hcongr : countIn (fun k => if k = j then v else f k) e j = countIn f e j :=
        countIn_congr fun k hk => if_neg (Nat.ne_of_lt hk)
      simp only [countIn_succ, hcongr]
      rw [if_pos trivial]
      omega

theorem countIn_swap_remove (f : Nat → Nat) (x m j : Nat) (hj : j < m + 1) :
    countIn (fun k => if k = j then f m else f k) x m + (if f j = x then 1 else 0)
      = countIn f x (m + 1) := by
  rcases Nat.lt_or_ge j m with hlt | hge
  · rw [countIn_update hlt, countIn_succ]
  · have hjm : j = m := Nat.le_antisymm (Nat.lt_succ_iff.mp hj) hge
    subst hjm
    have hcongr : countIn (fun k => if k = j then f j else f k) x j = countIn f x j :=
      countIn_congr fun k hk => if_neg (Nat.ne_of_lt hk)
    rw [hcongr, countIn_succ]

/-! ### Characterization of the kill loop -/

theorem kill_loop_no_match {e : Nat} :
    ∀ (fuel : Nat) (data : EntityData) (i : Nat),
      (∀ j, i ≤ j → j < data.alive_count → data.alive_indices j ≠ e) →
      kill_loop data e i fuel = data := by
  intro fuel
  induction fuel with
  | zero => intro data i _; rfl
  | succ fuel ih =>
    intro data i h
    show (if i < data.alive_count then _ else data) = data
    by_cases hi : i < data.alive_count
    · rw [if_pos hi, if_neg (h i (Nat.le_refl i) hi)]
      exact ih data (i + 1) fun j hj => h j (Nat.le_of_succ_le hj)
    · exact if_neg hi

theorem kill_loop_match {e : Nat} :
    ∀ (fuel : Nat) (data : EntityData) (i j : Nat),
      i ≤ j → j < data.alive_count → data.alive_indices j = e →
      (∀ k, i ≤ k → k < data.alive_count → k ≠ j → data.alive_indices k ≠ e) →
      data.alive_count - i ≤ fuel →
      kill_loop data e i fuel = remove_alive data e j := by
  intro fuel
  induction fuel with
  | zero =>
    intro data i j hij hj _ _ hfuel
    omega
  | succ fuel ih =>
    intro data i j hij hj hje huniq hfuel
    have hi : i < data.alive_count := Nat.lt_of_le_of_lt hij hj
    show (if i < data.alive_count then _ else data) = _
    rw [if_pos hi]
    by_cases hmatch : data.alive_indices i = e
    · have hij' : i = j := by
        by_contra hne
        exact huniq i (Nat.le_refl i) hi hne hmatch
      subst hij'
      rw [if_pos hmatch]
      apply kill_loop_no_match
      intro k hk1 hk2
      have hk2' : k < data.alive_count - 1 := hk2
      have hki : k ≠ i := by omega
      have heq : (remove_alive data e i).alive_indices k = data.alive_indices k := by
        simp [remove_alive, hki]
      rw [heq]
      exact huniq k (by omega) (by omega) hki
    · rw [if_neg hmatch]
      have hij2 : i ≠ j := fun hh => hmatch (hh ▸ hje)
      exact ih data (i + 1) j (by omega) hj hje
        (fun k hk1 hk2 hk3 => huniq k (by omega) hk2 hk3) (by omega)

theorem kill_entity_no_match (data : EntityData) (e : Nat)
    (h : ∀ j, j < data.alive_count → data.alive_indices j ≠ e) :
    kill_entity data e = data :=
  kill_loop_no_match data.alive_count data 0 fun j _ => h j

theorem kill_entity_match (data : EntityData) (e j : Nat)
    (hj : j < data.alive_count) (hje : data.alive_indices j = e)
    (huniq : ∀ k, k < data.alive_count → k ≠ j → data.alive_indices k ≠ e) :
    kill_entity data e = remove_alive data e j :=
  kill_loop_match data.alive_count data 0 j (Nat.zero_le j) hj hje
    (fun k _ => huniq k) (by omega)

/-! ### Facts extracted from the guard predicates -/

theorem traversable_facts {cfg : Config} {s : EntityData} {m : TileMap}
    {p : Position} (h : is_traversable cfg s m p = true) :
    is_valid_position cfg p = true ∧ s.grid p = none ∧
      (m p.x p.y).traversable = true := by
  unfold is_traversable at h
  by_cases hc : (is_valid_position cfg p && !(is_occupied cfg s p)) = true
  · rw [if_pos hc] at h
    have hv : is_valid_position cfg p = true := by
      cases hval : is_valid_position cfg p
      · rw [hval] at hc; simp at hc
      · rfl
    have hocc : is_occupied cfg s p = false := by
      cases hoc : is_occupied cfg s p
      · rfl
      · rw [hoc] at hc; simp at hc
    have hgrid : s.grid p = none := by
      unfold is_occupied at hocc
      rw [hv] at hocc
      simp at hocc
      exact Option.not_isSome_iff_eq_none.mp (by simp [hocc])
    exact ⟨hv, hgrid, h⟩
  · rw [if_neg hc] at h
    exact absurd h (by simp)

theorem not_traversable_of_invalid {cfg : Config} {s : EntityData} {m : TileMap}
    {p : Position} (h : is_valid_position cfg p = false) :
    is_traversable cfg s m p = false := by
  unfold is_traversable
  rw [if_neg]
  rw [h]
  simp

theorem not_traversable_of_occupied {cfg : Config} {s : EntityData} {m : TileMap}
    {p : Position} (h : is_occupied cfg s p = true) :
    is_traversable cfg s m p = false := by
  unfold is_traversable
  rw [if_neg]
  rw [h]
  simp

/-! ### State characterizations of create and move -/

theorem create_fail_state {cfg : Config} {s : EntityData} {m : TileMap} {p : Position}
    (hg : (s.dead_count == 0 || !(is_traversable cfg s m p)) = true) :
    create_entity cfg s m p = (none, s) := by
  unfold create_entity
  rw [if_pos hg]

theorem create_success_state {cfg : Config} {s : EntityData} {m : TileMap} {p : Position}
    (hg : (s.dead_count == 0 || !(is_traversable cfg s m p)) = false) :
    create_entity cfg s m p =
      (some (s.dead_indices (s.dead_count - 1)),
        { positions := fun j =>
            if j = s.dead_indices (s.dead_count - 1) then p else s.positions j
          alive_indices := fun j =>
            if j = s.alive_count then s.dead_indices (s.dead_count - 1)
            else s.alive_indices j
          alive_count := s.alive_count + 1
          dead_indices := s.dead_indices
          dead_count := s.dead_count - 1
          grid := fun q =>
            if q = p then some (s.dead_indices (s.dead_count - 1)) else s.grid q }) := by
  unfold create_entity
  rw [if_neg (by simp [hg])]

theorem create_guard_false {cfg : Config} {s : EntityData} {m : TileMap} {p : Position}
    (hg : (s.dead_count == 0 || !(is_traversable cfg s m p)) = false) :
    s.dead_count ≠ 0 ∧ is_traversable cfg s m p = true := by
  simpa using hg

theorem create_guard_true {cfg : Config} {s : EntityData} {m : TileMap} {p : Position}
    (hg : (s.dead_count == 0 || !(is_traversable cfg s m p)) = true) :
    s.dead_count = 0 ∨ is_traversable cfg s m p = false := by
  simpa using hg

theorem move_fail_state {cfg : Config} {s : EntityData} {m : TileMap} {e : Nat}
    {dir : Direction}
    (ht : is_traversable cfg s m (get_new_position (s.positions e) dir) = false) :
    move_entity cfg s m e dir = (false, s) := by
  simp [move_entity, ht]

theorem move_success_state {cfg : Config} {s : EntityData} {m : TileMap} {e : Nat}
    {dir : Direction}
    (ht : is_traversable cfg s m (get_new_position (s.positions e) dir) = true) :
    move_entity cfg s m e dir =
      (true,
        { s with
          grid := fun p =>
            if p = get_new_position (s.positions e) dir then some e
            else if p = s.positions e then none
            else s.grid p
          positions := fun j =>
            if j = e then get_new_position (s.positions e) dir
            else s.positions j }) := by
  simp [move_entity, ht]

/-! ### The partition invariant is established and preserved -/

theorem countIn_snoc (f : Nat → Nat) (v e n : Nat) :
    countIn (fun j => if j = n then v else f j) e (n + 1)
      = countIn f e n + (if v = e then 1 else 0) := by
  rw [countIn_succ]
  have h1 : countIn (fun j => if j = n then v else f j) e n = countIn f e n :=
    countIn_congr fun j hj => if_neg (Nat.ne_of_lt hj)
  rw [h1]
  simp

theorem countIn_id {e : Nat} : ∀ {n : Nat}, e < n → countIn (fun i => i) e n = 1 := by
  intro n
  induction n with
  | zero => intro h; exact absurd h (Nat.not_lt_zero e)
  | succ n ih =>
    intro he
    rw [countIn_succ]
    rcases Nat.lt_or_ge e n with h | h
    · rw [ih h, if_neg (by omega)]
    · have hen : e = n := by omega
      subst hen
      rw [countIn_eq_zero fun j hj => by simpa using Nat.ne_of_lt hj, if_pos rfl]

theorem alive_unique {cfg : Config} {s : EntityData} (h : PartitionInv cfg s)
    {j k e : Nat} (hj : j < s.alive_count) (hje : s.alive_indices j = e)
    (hk : k < s.alive_count) (hke : s.alive_indices k = e) : j = k := by
  by_contra hne
  have hemax : e < cfg.MAX_ENTITIES := hje ▸ h.2.1 j hj
  have h1 := h.2.2.2 e hemax
  rcases Nat.lt_or_ge j k with hlt | hge
  · have := countIn_two hlt hk hje hke
    omega
  · have hlt : k < j := by omega
    have := countIn_two hlt hj hke hje
    omega

theorem partition_init (cfg : Config) : PartitionInv cfg (initialState cfg) := by
  refine ⟨Nat.zero_add _, ?_, ?_, ?_⟩
  · intro i hi
    exact absurd hi (Nat.not_lt_zero i)
  · intro i hi
    have hi' : i < cfg.MAX_ENTITIES := hi
    show (if i < cfg.MAX_ENTITIES then i else (freshPool cfg).dead_indices i)
      < cfg.MAX_ENTITIES
    rw [if_pos hi']
    exact hi'
  · intro e he
    have h2 : countIn (initialState cfg).dead_indices e cfg.MAX_ENTITIES
        = countIn (fun i => i) e cfg.MAX_ENTITIES := by
      apply countIn_congr
      intro j hj
      show (if j < cfg.MAX_ENTITIES then j else (freshPool cfg).dead_indices j) = j
      rw [if_pos hj]
    show countIn (initialState cfg).alive_indices e 0
        + countIn (initialState cfg).dead_indices e cfg.MAX_ENTITIES = 1
    rw [h2, countIn_id he]
    rfl

theorem partition_create (cfg : Config) (s : EntityData) (m : TileMap) (p : Position)
    (h : PartitionInv cfg s) : PartitionInv cfg (create_entity cfg s m p).2 := by
  cases hg : (s.dead_count == 0 || !(is_traversable cfg s m p)) with
  | true =>
    rw [create_fail_state hg]
    exact h
  | false =>
    obtain ⟨hdc, -⟩ := create_guard_false hg
    rw [create_success_state hg]
    obtain ⟨h1, h2, h3, h4⟩ := h
    refine ⟨?_, ?_, ?_, ?_⟩
    · show s.alive_count + 1 + (s.dead_count - 1) = cfg.MAX_ENTITIES
      omega
    · intro i hi
      have hi' : i < s.alive_count + 1 := hi
      show (if i = s.alive_count then s.dead_indices (s.dead_count - 1)
        else s.alive_indices i) < cfg.MAX_ENTITIES
      by_cases hie : i = s.alive_count
      · rw [if_pos hie]
        exact h3 _ (by omega)
      · rw [if_neg hie]
        exact h2 i (by omega)
    · intro i hi
      have hi' : i < s.dead_count - 1 := hi
      exact h3 i (by omega)
    · intro e he
      have h4e := h4 e he
      show countIn (fun j => if j = s.alive_count then s.dead_indices (s.dead_count - 1)
          else s.alive_indices j) e (s.alive_count + 1)
        + countIn s.dead_indices e (s.dead_count - 1) = 1
      rw [countIn_snoc]
      have hdc2 : s.dead_count = (s.dead_count - 1) + 1 := by omega
      rw [hdc2, countIn_succ] at h4e
      omega

theorem partition_remove (cfg : Config) (s : EntityData) (e j : Nat)
    (h : PartitionInv cfg s) (hj : j < s.alive_count) (hje : s.alive_indices j = e) :
    PartitionInv cfg (remove_alive s e j) := by
  obtain ⟨h1, h2, h3, h4⟩ := h
  have hac : 1 ≤ s.alive_count := by omega
  refine ⟨?_, ?_, ?_, ?_⟩
  · show s.alive_count - 1 + (s.dead_count + 1) = cfg.MAX_ENTITIES
    omega
  · intro i hi
    have hi' : i < s.alive_count - 1 := hi
    show (if i = j then s.alive_indices (s.alive_count - 1) else s.alive_indices i)
      < cfg.MAX_ENTITIES
    by_cases hij : i = j
    · rw [if_pos hij]
      exact h2 _ (by omega)
    · rw [if_neg hij]
      exact h2 i (by omega)
  · intro i hi
    have hi' : i < s.dead_count + 1 := hi
    show (if i = s.dead_count then e else s.dead_indices i) < cfg.MAX_ENTITIES
    by_cases hid : i = s.dead_count
    · rw [if_pos hid]
      exact hje ▸ h2 j hj
    · rw [if_neg hid]
      exact h3 i (by omega)
  · intro x hx
    have h4x := h4 x hx
    show countIn (fun j' => if j' = j then s.alive_indices (s.alive_count - 1)
        else s.alive_indices j') x (s.alive_count - 1)
      + countIn (fun j' => if j' = s.dead_count then e else s.dead_indices j') x
          (s.dead_count + 1) = 1
    rw [countIn_snoc]
    have hswap := countIn_swap_remove s.alive_indices x (s.alive_count - 1) j (by omega)
    have hac1 : s.alive_count - 1 + 1 = s.alive_count := by omega
    rw [hac1, hje] at hswap
    omega

theorem partition_kill (cfg : Config) (s : EntityData) (e : Nat)
    (h : PartitionInv cfg s) : PartitionInv cfg (kill_entity s e) := by
  by_cases hmem : ∃ j, j < s.alive_count ∧ s.alive_indices j = e
  · obtain ⟨j, hj, hje⟩ := hmem
    have huniq : ∀ k, k < s.alive_count → k ≠ j → s.alive_indices k ≠ e := by
      intro k hk hkj hke
      exact hkj (alive_unique h hk hke hj hje)
    rw [kill_entity_match s e j hj hje huniq]
    exact partition_remove cfg s e j h hj hje
  · push_neg at hmem
    rw [kill_entity_no_match s e hmem]
    exact h

theorem partition_move (cfg : Config) (s : EntityData) (m : TileMap) (e : Nat)
    (dir : Direction) (h : PartitionInv cfg s) :
    PartitionInv cfg (move_entity cfg s m e dir).2 := by
  cases ht : is_traversable cfg s m (get_new_position (s.positions e) dir) with
  | false =>
    rw [move_fail_state ht]
    exact h
  | true =>
    rw [move_success_state ht]
    exact h

theorem reachable_partition {cfg : Config} {s : EntityData}
    (h : Reachable cfg s) : PartitionInv cfg s := by
  induction h with
  | init => exact partition_init cfg
  | step s' op hr ih =>
    cases op with
    | create m p => exact partition_create cfg s' m p ih
    | kill e => exact partition_kill cfg s' e ih
    | move m e dir => exact partition_move cfg s' m e dir ih

/-! ### Grid/position consistency is established and preserved -/

theorem initialState_grid (cfg : Config) (p : Position) :
    (initialState cfg).grid p = none := by
  show (if is_valid_position cfg p then none else (freshPool cfg).grid p) = none
  split
  · rfl
  · rfl

theorem grid_init (cfg : Config) : GridConsistent (initialState cfg) := by
  constructor
  · rintro e ⟨i, hi, -⟩
    exact absurd hi (Nat.not_lt_zero i)
  · intro p e hpe
    rw [initialState_grid cfg p] at hpe
    exact absurd hpe (by simp)

theorem grid_create (cfg : Config) (s : EntityData) (m : TileMap) (p : Position)
    (hP : PartitionInv cfg s) (hG : GridConsistent s) :
    GridConsistent (create_entity cfg s m p).2 := by
  cases hg : (s.dead_count == 0 || !(is_traversable cfg s m p)) with
  | true =>
    rw [create_fail_state hg]
    exact hG
  | false =>
    obtain ⟨hdc, htrav⟩ := create_guard_false hg
    obtain ⟨hv, hgrid, -⟩ := traversable_facts htrav
    rw [create_success_state hg]
    have hnotalive : ¬ isAlive s (s.dead_indices (s.dead_count - 1)) := by
      rintro ⟨k, hk, hke⟩
      have hemax : s.dead_indices (s.dead_count - 1) < cfg.MAX_ENTITIES :=
        hP.2.2.1 _ (by omega)
      have h4 := hP.2.2.2 _ hemax
      have ha := countIn_pos hk hke
      have hd := countIn_pos (show s.dead_count - 1 < s.dead_count by omega)
        (rfl : s.dead_indices (s.dead_count - 1) = s.dead_indices (s.dead_count - 1))
      omega
    refine ⟨?_, ?_⟩
    · rintro x ⟨i, hi, hix⟩
      have hi' : i < s.alive_count + 1 := hi
      have hix' : (if i = s.alive_count then s.dead_indices (s.dead_count - 1)
          else s.alive_indices i) = x := hix
      by_cases hxe : x = s.dead_indices (s.dead_count - 1)
      · rw [hxe]
        simp
      · have hine : i ≠ s.alive_count := by
          intro hh
          rw [if_pos hh] at hix'
          exact hxe hix'.symm
        rw [if_neg hine] at hix'
        have hax : isAlive s x := ⟨i, by omega, hix'⟩
        have hgx := hG.1 x hax
        have hpxp : s.positions x ≠ p := by
          intro hh
          rw [hh, hgrid] at hgx
          exact Option.noConfusion hgx
        dsimp only
        rw [if_neg hxe, if_neg hpxp]
        exact hgx
    · intro q x hqx
      have hqx' : (if q = p then some (s.dead_indices (s.dead_count - 1))
          else s.grid q) = some x := hqx
      by_cases hqp : q = p
      · rw [if_pos hqp] at hqx'
        have hxe : x = s.dead_indices (s.dead_count - 1) := (Option.some.inj hqx').symm
        constructor
        · refine ⟨s.alive_count, ?_, ?_⟩
          · show s.alive_count < s.alive_count + 1
            omega
          · show (if s.alive_count = s.alive_count then s.dead_indices (s.dead_count - 1)
              else s.alive_indices s.alive_count) = x
            rw [if_pos rfl, hxe]
        · show (if x = s.dead_indices (s.dead_count - 1) then p else s.positions x) = q
          rw [if_pos hxe, hqp]
      · rw [if_neg hqp] at hqx'
        obtain ⟨hax, hpx⟩ := hG.2 q x hqx'
        have hxne : x ≠ s.dead_indices (s.dead_count - 1) := by
          intro hh
          exact hnotalive (hh ▸ hax)
        constructor
        · obtain ⟨k, hk, hkx⟩ := hax
          refine ⟨k, ?_, ?_⟩
          · show k < s.alive_count + 1
            omega
          · show (if k = s.alive_count then s.dead_indices (s.dead_count - 1)
              else s.alive_indices k) = x
            rw [if_neg (by omega), hkx]
        · show (if x = s.dead_indices (s.dead_count - 1) then p else s.positions x) = q
          rw [if_neg hxne, hpx]

theorem grid_move (cfg : Config) (s : EntityData) (m : TileMap) (e : Nat)
    (dir : Direction) (hG : GridConsistent s) (halive : isAlive s e) :
    GridConsistent (move_entity cfg s m e dir).2 := by
  cases ht : is_traversable cfg s m (get_new_position (s.positions e) dir) with
  | false =>
    rw [move_fail_state ht]
    exact hG
  | true =>
    obtain ⟨hv, hnew_none, -⟩ := traversable_facts ht
    rw [move_success_state ht]
    have hcur : s.grid (s.positions e) = some e := hG.1 e halive
    have hne : get_new_position (s.positions e) dir ≠ s.positions e := by
      intro hh
      rw [hh, hcur] at hnew_none
      exact Option.noConfusion hnew_none
    refine ⟨?_, ?_⟩
    · rintro x ⟨i, hi, hix⟩
      have hax : isAlive s x := ⟨i, hi, hix⟩
      by_cases hxe : x = e
      · rw [hxe]
        dsimp only
        rw [if_pos rfl, if_pos rfl]
      · have hpx : s.positions x ≠ get_new_position (s.positions e) dir := by
          intro hh
          have h1 := hG.1 x hax
          rw [hh, hnew_none] at h1
          exact Option.noConfusion h1
        have hpc : s.positions x ≠ s.positions e := by
          intro hh
          have h1 := hG.1 x hax
          rw [hh, hcur] at h1
          exact hxe (Option.some.inj h1).symm
        dsimp only
        rw [if_neg hxe, if_neg hpx, if_neg hpc]
        exact hG.1 x hax
    · intro q x hqx
      have hqx' : (if q = get_new_position (s.positions e) dir then some e
          else if q = s.positions e then none else s.grid q) = some x := hqx
      by_cases hq1 : q = get_new_position (s.positions e) dir
      · rw [if_pos hq1] at hqx'
        have hxe : x = e := (Option.some.inj hqx').symm
        constructor
        · obtain ⟨i0, hi0, hie⟩ := halive
          exact ⟨i0, hi0, by rw [hie, hxe]⟩
        · show (if x = e then get_new_position (s.positions e) dir
            else s.positions x) = q
          rw [if_pos hxe, hq1]
      · rw [if_neg hq1] at hqx'
        by_cases hq2 : q = s.positions e
        · rw [if_pos hq2] at hqx'
          exact absurd hqx' (by simp)
        · rw [if_neg hq2] at hqx'
          obtain ⟨hax, hpx⟩ := hG.2 q x hqx'
          have hxne : x ≠ e := by
            intro hh
            rw [hh] at hpx
            exact hq2 hpx.symm
          constructor
          · exact hax
          · show (if x = e then get_new_position (s.positions e) dir
              else s.positions x) = q
            rw [if_neg hxne, hpx]

theorem grid_remove (s : EntityData) (e j : Nat)
    (hG : GridConsistent s) (hj : j < s.alive_count) (hje : s.alive_indices j = e)
    (huniq : ∀ k, k < s.alive_count → k ≠ j → s.alive_indices k ≠ e) :
    GridConsistent (remove_alive s e j) := by
  have halive_e : isAlive s e := ⟨j, hj, hje⟩
  have hpos_e : s.grid (s.positions e) = some e := hG.1 e halive_e
  refine ⟨?_, ?_⟩
  · rintro x ⟨i, hi, hix⟩
    have hi' : i < s.alive_count - 1 := hi
    have hix' : (if i = j then s.alive_indices (s.alive_count - 1)
        else s.alive_indices i) = x := hix
    have hax_ne : isAlive s x ∧ x ≠ e := by
      by_cases hij : i = j
      · rw [if_pos hij] at hix'
        refine ⟨⟨s.alive_count - 1, by omega, hix'⟩, ?_⟩
        intro hxe
        exact huniq (s.alive_count - 1) (by omega) (by omega) (hix'.trans hxe)
      · rw [if_neg hij] at hix'
        exact ⟨⟨i, by omega, hix'⟩, fun hxe => huniq i (by omega) hij (hix'.trans hxe)⟩
    obtain ⟨hax, hxe⟩ := hax_ne
    have hgx := hG.1 x hax
    have hpp : s.positions x ≠ s.positions e := by
      intro hh
      rw [hh, hpos_e] at hgx
      exact hxe (Option.some.inj hgx).symm
    show (if s.positions x = s.positions e then none else s.grid (s.positions x))
      = some x
    rw [if_neg hpp]
    exact hgx
  · intro q x hqx
    have hqx' : (if q = s.positions e then none else s.grid q) = some x := hqx
    by_cases hq : q = s.positions e
    · rw [if_pos hq] at hqx'
      exact absurd hqx' (by simp)
    · rw [if_neg hq] at hqx'
      obtain ⟨hax, hpx⟩ := hG.2 q x hqx'
      have hxe : x ≠ e := by
        intro hh
        rw [hh] at hpx
        exact hq hpx.symm
      obtain ⟨k, hk, hkx⟩ := hax
      have hkj : k ≠ j := by
        intro hh
        rw [hh, hje] at hkx
        exact hxe hkx.symm
      refine ⟨?_, hpx⟩
      rcases Nat.lt_or_ge k (s.alive_count - 1) with hlt | hge
      · refine ⟨k, hlt, ?_⟩
        show (if k = j then s.alive_indices (s.alive_count - 1)
          else s.alive_indices k) = x
        rw [if_neg hkj, hkx]
      · have hkac : k = s.alive_count - 1 := by omega
        have hjk : j ≠ k := fun hh => hkj hh.symm
        have hjlt : j < s.alive_count - 1 := by omega
        refine ⟨j, hjlt, ?_⟩
        show (if j = j then s.alive_indices (s.alive_count - 1)
          else s.alive_indices j) = x
        rw [if_pos rfl, ← hkac, hkx]

theorem grid_kill (cfg : Config) (s : EntityData) (e : Nat)
    (hP : PartitionInv cfg s) (hG : GridConsistent s) :
    GridConsistent (kill_entity s e) := by
  by_cases hmem : ∃ j, j < s.alive_count ∧ s.alive_indices j = e
  · obtain ⟨j, hj, hje⟩ := hmem
    have huniq : ∀ k, k < s.alive_count → k ≠ j → s.alive_indices k ≠ e := by
      intro k hk hkj hke
      exact hkj (alive_unique hP hk hke hj hje)
    rw [kill_entity_match s e j hj hje huniq]
    exact grid_remove s e j hG hj hje huniq
  · push_neg at hmem
    rw [kill_entity_no_match s e hmem]
    exact hG

theorem reachableOk_inv {cfg : Config} {s : EntityData} (h : ReachableOk cfg s) :
    PartitionInv cfg s ∧ GridConsistent s := by
  induction h with
  | init => exact ⟨partition_init cfg, grid_init cfg⟩
  | step s' op hr hok ih =>
    cases op with
    | create m p =>
      exact ⟨partition_create cfg s' m p ih.1, grid_create cfg s' m p ih.1 ih.2⟩
    | kill e =>
      exact ⟨partition_kill cfg s' e ih.1, grid_kill cfg s' e ih.1 ih.2⟩
    | move m e dir =>
      exact ⟨partition_move cfg s' m e dir ih.1, grid_move cfg s' m e dir ih.2 hok⟩

/-! ### Helper facts about the concrete scenario states -/

theorem sA_consistent : GridConsistent sA := by
  constructor
  · rintro e ⟨i, hi, hie⟩
    have hie' : (1 : Nat) = e := hie
    rw [← hie']
    decide
  · intro p e hpe
    have hpe' : (if p = { x := 2, y := 3 } then some 1 else none) = some e := hpe
    by_cases hp : p = { x := 2, y := 3 }
    · rw [if_pos hp] at hpe'
      have he : e = 1 := (Option.some.inj hpe').symm
      subst he
      refine ⟨⟨0, by decide, by decide⟩, ?_⟩
      rw [hp]
      decide
    · rw [if_neg hp] at hpe'
      exact absurd hpe' (by simp)

/-! ### The claims -/

/-- C1 (amended): after the reset function runs, `dead_indices` holds
`0..MAX_ENTITIES-1` in ascending order, every position is `(0,0)` and every
valid grid cell is empty; the counts are not written by the reset function, so
`alive_count = 0` and `dead_count = MAX_ENTITIES` hold afterwards exactly when
they already held before the call (as they do at startup). -/
theorem claim_c1_amended (cfg : Config) (s : EntityData)
    (h0 : s.alive_count = 0) (h1 : s.dead_count = cfg.MAX_ENTITIES) :
    (∀ i, i < cfg.MAX_ENTITIES → (init cfg s).dead_indices i = i) ∧
    (init cfg s).alive_count = 0 ∧
    (init cfg s).dead_count = cfg.MAX_ENTITIES ∧
    (∀ e, e < cfg.MAX_ENTITIES → (init cfg s).positions e = { x := 0, y := 0 }) ∧
    (∀ p, is_valid_position cfg p = true → (init cfg s).grid p = none) := by
  refine ⟨?_, h0, h1, ?_, ?_⟩
  · intro i hi
    show (if i < cfg.MAX_ENTITIES then i else s.dead_indices i) = i
    rw [if_pos hi]
  · intro e he
    show (if e < cfg.MAX_ENTITIES then { x := 0, y := 0 } else s.positions e)
      = ({ x := 0, y := 0 } : Position)
    rw [if_pos he]
  · intro p hp
    show (if is_valid_position cfg p then none else s.grid p) = none
    rw [if_pos hp]

/-- C1 counterexample: running the reset function on a pool that has already
allocated one entity (a reachable state) leaves `alive_count = 1` and
`dead_count = 4`, refuting the claim that it sets `alive_count = 0` and
`dead_count = MAX_ENTITIES`. -/
theorem claim_c1_counterexample :
    (init cfg5 s5_1).alive_count ≠ 0 ∧
    (init cfg5 s5_1).dead_count ≠ cfg5.MAX_ENTITIES := by
  decide

/-- C1 witness: the amended claim applied at the startup pool of capacity 5. -/
theorem claim_c1_witness :
    (freshPool cfg5).alive_count = 0 ∧
    (freshPool cfg5).dead_count = cfg5.MAX_ENTITIES ∧
    ((∀ i, i < cfg5.MAX_ENTITIES → (init cfg5 (freshPool cfg5)).dead_indices i = i) ∧
      (init cfg5 (freshPool cfg5)).alive_count = 0 ∧
      (init cfg5 (freshPool cfg5)).dead_count = cfg5.MAX_ENTITIES ∧
      (∀ e, e < cfg5.MAX_ENTITIES →
        (init cfg5 (freshPool cfg5)).positions e = { x := 0, y := 0 }) ∧
      (∀ p, is_valid_position cfg5 p = true →
        (init cfg5 (freshPool cfg5)).grid p = none)) :=
  ⟨rfl, rfl, claim_c1_amended cfg5 (freshPool cfg5) rfl rfl⟩

/-- C2: in every reachable pool state, `alive_count + dead_count` equals
`MAX_ENTITIES`, and every id below `MAX_ENTITIES` occurs exactly once across
the live prefixes of the alive and dead arrays (in particular there are no
duplicates). -/
theorem claim_c2 (cfg : Config) (s : EntityData) (h : Reachable cfg s) :
    s.alive_count + s.dead_count = cfg.MAX_ENTITIES ∧
    (∀ e, e < cfg.MAX_ENTITIES →
      countIn s.alive_indices e s.alive_count
        + countIn s.dead_indices e s.dead_count = 1) := by
  have hp := reachable_partition h
  exact ⟨hp.1, hp.2.2.2⟩

/-- C2 witness: the partition property evaluated after one create call. -/
theorem claim_c2_witness :
    Reachable cfg5 (applyOp cfg5 (initialState cfg5)
      (Op.create mapAll { x := 0, y := 0 })) ∧
    ((applyOp cfg5 (initialState cfg5)
        (Op.create mapAll { x := 0, y := 0 })).alive_count
      + (applyOp cfg5 (initialState cfg5)
          (Op.create mapAll { x := 0, y := 0 })).dead_count = cfg5.MAX_ENTITIES ∧
    (∀ e, e < cfg5.MAX_ENTITIES →
      countIn (applyOp cfg5 (initialState cfg5)
          (Op.create mapAll { x := 0, y := 0 })).alive_indices e
          (applyOp cfg5 (initialState cfg5)
            (Op.create mapAll { x := 0, y := 0 })).alive_count
        + countIn (applyOp cfg5 (initialState cfg5)
            (Op.create mapAll { x := 0, y := 0 })).dead_indices e
            (applyOp cfg5 (initialState cfg5)
              (Op.create mapAll { x := 0, y := 0 })).dead_count = 1)) :=
  ⟨Reachable.step _ _ Reachable.init,
    claim_c2 cfg5 _ (Reachable.step _ _ Reachable.init)⟩

/-- C3 (amended): grid/position consistency holds in every state reachable by
public calls that respect the move precondition (each `move_entity` call gets
a then-alive id, as the spec requires), and from such a state every
precondition-respecting public operation preserves it.  The unamended claim is
refuted by `claim_c3_counterexample`: `move_entity` applied to a dead id can
break consistency. -/
theorem claim_c3_amended (cfg : Config) (s : EntityData) (h : ReachableOk cfg s) :
    GridConsistent s ∧
    ∀ op, OpOk s op → GridConsistent (applyOp cfg s op) :=
  ⟨(reachableOk_inv h).2,
    fun op hok => (reachableOk_inv (ReachableOk.step s op h hok)).2⟩

/-- C3 counterexample: the pool `sA` is grid/position consistent, yet one
`move_entity` call on the dead id 0 (whose stale recorded position is (0,0))
succeeds and writes the dead id onto the grid, producing an inconsistent
state — so not every public operation preserves consistency. -/
theorem claim_c3_counterexample :
    GridConsistent sA ∧
    ¬ GridConsistent (applyOp cfg2 sA (Op.move mapAll 0 Direction.SOUTH)) := by
  refine ⟨sA_consistent, ?_⟩
  intro hcons
  have hcell : (applyOp cfg2 sA (Op.move mapAll 0 Direction.SOUTH)).grid
      { x := 0, y := 1 } = some 0 := by decide
  obtain ⟨⟨i, hi, hie⟩, -⟩ := hcons.2 { x := 0, y := 1 } 0 hcell
  have hac : (applyOp cfg2 sA (Op.move mapAll 0 Direction.SOUTH)).alive_count = 1 := by
    decide
  have hi0 : i = 0 := by omega
  subst hi0
  exact absurd hie (by decide)

/-- C3 witness: the amended claim applied at the freshly reset pool. -/
theorem claim_c3_witness :
    ReachableOk cfg5 (initialState cfg5) ∧
    (GridConsistent (initialState cfg5) ∧
      ∀ op, OpOk (initialState cfg5) op →
        GridConsistent (applyOp cfg5 (initialState cfg5) op)) :=
  ⟨ReachableOk.init, claim_c3_amended cfg5 (initialState cfg5) ReachableOk.init⟩

/-- C4: `create_entity` returns empty exactly when no dead id remains or the
position is not traversable; on failure the pool state is returned unchanged,
and on success the result is the popped free-list top and all four mutations
(free-list pop, alive append, position record, grid write) are applied. -/
theorem claim_c4 (cfg : Config) (s : EntityData) (m : TileMap) (p : Position) :
    ((create_entity cfg s m p).1 = none ↔
      s.dead_count = 0 ∨ is_traversable cfg s m p = false) ∧
    ((create_entity cfg s m p).1 = none → (create_entity cfg s m p).2 = s) ∧
    ((create_entity cfg s m p).1 ≠ none →
      (create_entity cfg s m p).1 = some (s.dead_indices (s.dead_count - 1)) ∧
      (create_entity cfg s m p).2 =
        { positions := fun j =>
            if j = s.dead_indices (s.dead_count - 1) then p else s.positions j
          alive_indices := fun j =>
            if j = s.alive_count then s.dead_indices (s.dead_count - 1)
            else s.alive_indices j
          alive_count := s.alive_count + 1
          dead_indices := s.dead_indices
          dead_count := s.dead_count - 1
          grid := fun q =>
            if q = p then some (s.dead_indices (s.dead_count - 1))
            else s.grid q }) := by
  cases hg : (s.dead_count == 0 || !(is_traversable cfg s m p)) with
  | true =>
    rw [create_fail_state hg]
    exact ⟨⟨fun _ => create_guard_true hg, fun _ => rfl⟩, fun _ => rfl,
      fun hne => absurd rfl hne⟩
  | false =>
    obtain ⟨hdc, ht⟩ := create_guard_false hg
    rw [create_success_state hg]
    refine ⟨⟨fun hh => absurd hh (by simp), fun hh => ?_⟩,
      fun hh => absurd hh (by simp), fun _ => ⟨rfl, rfl⟩⟩
    rcases hh with h0 | h1
    · exact absurd h0 hdc
    · rw [ht] at h1
      exact Bool.noConfusion h1

/-- C4 witness: creating at the occupied cell (0,0) of `s5_1` fails and the
returned pool state equals the input state. -/
theorem claim_c4_witness :
    (create_entity cfg5 s5_1 mapAll { x := 0, y := 0 }).1 = none ∧
    (create_entity cfg5 s5_1 mapAll { x := 0, y := 0 }).2 = s5_1 :=
  ⟨by decide, (claim_c4 cfg5 s5_1 mapAll { x := 0, y := 0 }).2.1 (by decide)⟩

/-- C5: a `move_entity` call on an alive id whose computed destination is not
traversable returns false and leaves the pool state — in particular the
recorded position, the occupied grid cell, `alive_count` and `dead_count` —
unchanged: no mutation happens before the traversability check. -/
theorem claim_c5 (cfg : Config) (s : EntityData) (m : TileMap) (e : Nat)
    (dir : Direction) (_halive : isAlive s e)
    (hblock : is_traversable cfg s m (get_new_position (s.positions e) dir) = false) :
    move_entity cfg s m e dir = (false, s) :=
  move_fail_state hblock

/-- C5 witness: the alive entity 4 at the left edge cannot move EAST (to
x = -1) and the state is returned unchanged. -/
theorem claim_c5_witness :
    isAlive s5_edge 4 ∧
    is_traversable cfg5 s5_edge mapAll
      (get_new_position (s5_edge.positions 4) Direction.EAST) = false ∧
    move_entity cfg5 s5_edge mapAll 4 Direction.EAST = (false, s5_edge) :=
  ⟨⟨0, by decide, by decide⟩, by decide,
    claim_c5 cfg5 s5_edge mapAll 4 Direction.EAST ⟨0, by decide, by decide⟩
      (by decide)⟩

/-- C6: free ids are recycled LIFO: a successful create pops the top of the
dead stack and shrinks it, a kill of an alive id pushes that id on top of the
dead stack; concretely with capacity 5, after creating five entities the
third-created id is 2, killing it puts 2 back on top, and the next successful
create returns that same id 2. -/
theorem claim_c6 :
    (∀ (cfg : Config) (s : EntityData) (m : TileMap) (p : Position) (e : Nat),
      (create_entity cfg s m p).1 = some e →
        e = s.dead_indices (s.dead_count - 1) ∧
        (create_entity cfg s m p).2.dead_count = s.dead_count - 1) ∧
    (∀ (s : EntityData) (e j : Nat), j < s.alive_count → s.alive_indices j = e →
      (∀ k, k < s.alive_count → k ≠ j → s.alive_indices k ≠ e) →
      (kill_entity s e).dead_indices s.dead_count = e ∧
      (kill_entity s e).dead_count = s.dead_count + 1) ∧
    (create_entity cfg5 s5_2 mapAll { x := 2, y := 0 }).1 = some 2 ∧
    s5_killed.dead_indices (s5_killed.dead_count - 1) = 2 ∧
    (create_entity cfg5 s5_killed mapAll { x := 2, y := 0 }).1 = some 2 := by
  refine ⟨?_, ?_, by decide, by decide, by decide⟩
  · intro cfg s m p e h
    cases hg : (s.dead_count == 0 || !(is_traversable cfg s m p)) with
    | true =>
      rw [create_fail_state hg] at h
      exact absurd h (by simp)
    | false =>
      rw [create_success_state hg] at h ⊢
      have h' : some (s.dead_indices (s.dead_count - 1)) = some e := h
      exact ⟨(Option.some.inj h').symm, rfl⟩
  · intro s e j hj hje huniq
    rw [kill_entity_match s e j hj hje huniq]
    constructor
    · show (if s.dead_count = s.dead_count then e else s.dead_indices s.dead_count) = e
      rw [if_pos rfl]
    · rfl

/-- C6 witness: the pop and push clauses applied at the concrete capacity-5
scenario (third create pops id 2; killing id 2 out of the full pool pushes it
back on the dead stack). -/
theorem claim_c6_witness :
    (2 = s5_2.dead_indices (s5_2.dead_count - 1) ∧
      (create_entity cfg5 s5_2 mapAll { x := 2, y := 0 }).2.dead_count
        = s5_2.dead_count - 1) ∧
    ((kill_entity s5_5 2).dead_indices s5_5.dead_count = 2 ∧
      (kill_entity s5_5 2).dead_count = s5_5.dead_count + 1) :=
  ⟨claim_c6.1 cfg5 s5_2 mapAll { x := 2, y := 0 } 2 (by decide),
    claim_c6.2.1 s5_5 2 2 (by decide) (by decide) (by decide)⟩

/-- C7: killing an id that does not occur in the live prefix of the alive
array is a silent no-op: the pool state after the call equals the state
before it. -/
theorem claim_c7 (s : EntityData) (e : Nat)
    (h : ∀ i, i < s.alive_count → s.alive_indices i ≠ e) :
    kill_entity s e = s :=
  kill_entity_no_match s e h

/-- C7 witness: killing the dead id 2 in the one-entity pool `s5_1` returns
the state unchanged. -/
theorem claim_c7_witness :
    (∀ i, i < s5_1.alive_count → s5_1.alive_indices i ≠ 2) ∧
    kill_entity s5_1 2 = s5_1 :=
  ⟨by decide, claim_c7 s5_1 2 (by decide)⟩

/-- C8: `get_new_position` is a pure function sending NORTH to (x, y-1),
SOUTH to (x, y+1), EAST to (x-1, y), WEST to (x+1, y), and returning the
current position unchanged for any unrecognized direction value. -/
theorem claim_c8 (p : Position) :
    get_new_position p Direction.NORTH = { x := p.x, y := p.y - 1 } ∧
    get_new_position p Direction.SOUTH = { x := p.x, y := p.y + 1 } ∧
    get_new_position p Direction.EAST = { x := p.x - 1, y := p.y } ∧
    get_new_position p Direction.WEST = { x := p.x + 1, y := p.y } ∧
    ∀ v : Int, get_new_position p (Direction.other v) = p :=
  ⟨rfl, rfl, rfl, rfl, fun _ => rfl⟩

/-- C9: `is_occupied` is true exactly when the position is valid and the grid
cell holds an id (out-of-bounds positions are unoccupied); `is_traversable` is
true exactly when the position is valid, unoccupied and its tile traversable,
and when validity or vacancy fails the result does not depend on the tile map
(the map is not consulted). -/
theorem claim_c9 (cfg : Config) (s : EntityData) (m : TileMap) (p : Position) :
    (is_occupied cfg s p = true ↔
      is_valid_position cfg p = true ∧ ∃ e, s.grid p = some e) ∧
    (is_traversable cfg s m p = true ↔
      is_valid_position cfg p = true ∧ is_occupied cfg s p = false ∧
        (m p.x p.y).traversable = true) ∧
    (is_valid_position cfg p = false ∨ is_occupied cfg s p = true →
      ∀ m2 : TileMap, is_traversable cfg s m p = is_traversable cfg s m2 p) := by
  refine ⟨?_, ⟨?_, ?_⟩, ?_⟩
  · simp [is_occupied, Bool.and_eq_true, Option.isSome_iff_exists]
  · intro h
    obtain ⟨hv, hg, ht⟩ := traversable_facts h
    refine ⟨hv, ?_, ht⟩
    simp [is_occupied, hg]
  · rintro ⟨hv, hocc, ht⟩
    unfold is_traversable
    rw [if_pos (by rw [hv, hocc]; rfl)]
    exact ht
  · intro hfail m2
    have hcond : ¬ ((is_valid_position cfg p && !(is_occupied cfg s p)) = true) := by
      rcases hfail with hv | ho
      · simp [hv]
      · intro hc
        rw [Bool.and_eq_true, ho] at hc
        exact Bool.noConfusion hc.2
    unfold is_traversable
    rw [if_neg hcond, if_neg hcond]

/-- C9 witness: the out-of-bounds position (-1, 0) short-circuits, so the
traversability result agrees for two tile maps that disagree everywhere. -/
theorem claim_c9_witness :
    (is_valid_position cfg5 { x := -1, y := 0 } = false ∨
      is_occupied cfg5 (initialState cfg5) { x := -1, y := 0 } = true) ∧
    is_traversable cfg5 (initialState cfg5) mapAll { x := -1, y := 0 }
      = is_traversable cfg5 (initialState cfg5) mapNone { x := -1, y := 0 } :=
  ⟨Or.inl (by decide),
    (claim_c9 cfg5 (initialState cfg5) mapAll { x := -1, y := 0 }).2.2
      (Or.inl (by decide)) mapNone⟩

/-- C10: in a grid-consistent state, an alive entity whose computed
destination equals its own current position (in particular under any
unrecognized direction value) can never move: its own cell counts as occupied
(or lies out of bounds), so `move_entity` returns false and mutates nothing. -/
theorem claim_c10 (cfg : Config) (s : EntityData) (m : TileMap) (e : Nat)
    (dir : Direction) (hcons : GridConsistent s) (halive : isAlive s e)
    (hfix : get_new_position (s.positions e) dir = s.positions e) :
    move_entity cfg s m e dir = (false, s) := by
  have hocc : s.grid (s.positions e) = some e := hcons.1 e halive
  apply move_fail_state
  rw [hfix]
  cases hval : is_valid_position cfg (s.positions e) with
  | false => exact not_traversable_of_invalid hval
  | true =>
    apply not_traversable_of_occupied
    unfold is_occupied
    rw [hval, hocc]
    rfl

/-- C10 witness: in the consistent pool `sA` the alive id 1 cannot move under
the unrecognized direction value 7 (which maps its position to itself). -/
theorem claim_c10_witness :
    GridConsistent sA ∧ isAlive sA 1 ∧
    get_new_position (sA.positions 1) (Direction.other 7) = sA.positions 1 ∧
    move_entity cfg2 sA mapAll 1 (Direction.other 7) = (false, sA) :=
  ⟨sA_consistent, ⟨0, by decide, by decide⟩, rfl,
    claim_c10 cfg2 sA mapAll 1 (Direction.other 7) sA_consistent
      ⟨0, by decide, by decide⟩ rfl⟩

end EntitySystem
